import Mathlib

/-!
Verification of the geometry and interaction core of a grid-based floor-plan
drawing application (the `EnhancedRoomCanvas` component).  Screen/grid
coordinate transforms, the shoelace area computation, rectangle detection,
freehand-stroke straightening, room closure and commitment, hit testing,
undo, and export are embedded as Lean definitions over real-valued points,
and their specified properties are proved below the definitions.
-/

namespace FloorPlan

noncomputable section

open Real

/-- A 2-D point (screen, grid or export space), real-valued coordinates. -/
@[ext] structure Point where
  x : ℝ
  y : ℝ

/-- Default point used to total list indexing (the source indexes only in bounds). -/
def pt0 : Point := ⟨0, 0⟩

/-- `const GRID_SIZE = 20`: nominal pixel size of one grid cell at 100% zoom. -/
def GRID_SIZE : ℝ := 20

/-- `screenToGrid`: converts a screen point to grid coordinates, rounding
each coordinate to the nearest integer (`Math.round`, half up). -/
def screenToGrid (zoom : ℝ) (viewOffset : Point) (point : Point) : Point :=
  let scale := GRID_SIZE * (zoom / 100)
  { x := (round ((point.x - viewOffset.x) / scale) : ℤ)
    y := (round ((point.y - viewOffset.y) / scale) : ℤ) }

/-- `gridToScreen`: converts a grid point to screen coordinates. -/
def gridToScreen (zoom : ℝ) (viewOffset : Point) (point : Point) : Point :=
  let scale := GRID_SIZE * (zoom / 100)
  { x := point.x * scale + viewOffset.x
    y := point.y * scale + viewOffset.y }

/-- `calculateArea`: shoelace loop over the vertex list; `< 3` points gives 0.
The accumulator loop mirrors the source's `for` loop with `j = (i+1) % n`. -/
def calculateArea (points : List Point) : ℝ :=
  if points.length < 3 then 0
  else
    let n := points.length
    let area := (List.range n).foldl
      (fun area i =>
        area + (points.getD i pt0).x * (points.getD ((i + 1) % n) pt0).y
             - (points.getD ((i + 1) % n) pt0).x * (points.getD i pt0).y) 0
    |area| / 2

/-- Cross term of the shoelace formula for one pair of vertices. -/
def cross (p q : Point) : ℝ := p.x * q.y - q.x * p.y

/-- The signed shoelace sum `Σ (x_i·y_{i+1 mod n} − x_{i+1 mod n}·y_i)`. -/
def shoelace (points : List Point) : ℝ :=
  ∑ i ∈ Finset.range points.length,
    cross (points.getD i pt0) (points.getD ((i + 1) % points.length) pt0)

/-- Sum of cross terms over adjacent pairs (no wrap-around). -/
def adjSum : List Point → ℝ
  | [] => 0
  | [_] => 0
  | p :: q :: rest => cross p q + adjSum (q :: rest)

lemma foldl_range_sub (A B : ℕ → ℝ) (n : ℕ) (a : ℝ) :
    (List.range n).foldl (fun acc i => acc + A i - B i) a
      = a + ∑ i ∈ Finset.range n, (A i - B i) := by
  induction n generalizing a with
  | zero => simp
  | succ n ih =>
      rw [List.range_succ, List.foldl_append, ih, Finset.sum_range_succ]
      simp only [List.foldl_cons, List.foldl_nil]
      ring

lemma calculateArea_eq (points : List Point) :
    calculateArea points = if points.length < 3 then 0 else |shoelace points| / 2 := by
  unfold calculateArea shoelace
  split
  · rfl
  · dsimp only
    rw [foldl_range_sub (fun i => (points.getD i pt0).x *
        (points.getD ((i + 1) % points.length) pt0).y)
        (fun i => (points.getD ((i + 1) % points.length) pt0).x *
        (points.getD i pt0).y), zero_add]
    simp only [cross]

lemma cross_skew (p q : Point) : cross p q = -cross q p := by
  simp only [cross]; ring

lemma adjSum_cons (p : Point) (t : List Point) (h : t ≠ []) :
    adjSum (p :: t) = cross p (t.getD 0 pt0) + adjSum t := by
  match t with
  | [] => exact absurd rfl h
  | q :: rest => simp [adjSum]

lemma adjSum_eq_range (points : List Point) :
    adjSum points
      = ∑ i ∈ Finset.range (points.length - 1),
          cross (points.getD i pt0) (points.getD (i + 1) pt0) := by
  induction points with
  | nil => simp [adjSum]
  | cons p t ih =>
      match t with
      | [] => simp [adjSum]
      | q :: rest =>
          rw [adjSum_cons p (q :: rest) (by simp)]
          rw [ih]
          have hlen : (p :: q :: rest).length - 1 = ((q :: rest).length - 1) + 1 := by
            simp
          rw [hlen, Finset.sum_range_succ']
          simp [List.getD]
          ring

lemma shoelace_eq_adjSum (points : List Point) (h : points ≠ []) :
    shoelace points
      = adjSum points
        + cross (points.getD (points.length - 1) pt0) (points.getD 0 pt0) := by
  have hn : 0 < points.length := List.length_pos.2 h
  unfold shoelace
  obtain ⟨m, hm⟩ : ∃ m, points.length = m + 1 := ⟨points.length - 1, by omega⟩
  rw [adjSum_eq_range, hm]
  rw [Finset.sum_range_succ]
  have h1 : m + 1 - 1 = m := by omega
  rw [h1]
  congr 1
  · apply Finset.sum_congr rfl
    intro i hi
    have hi' : i < m := Finset.mem_range.1 hi
    have h2 : (i + 1) % (m + 1) = i + 1 := Nat.mod_eq_of_lt (by omega)
    rw [h2]
  · rw [Nat.mod_self]

lemma getD_append_left {l l' : List Point} {i : ℕ} (h : i < l.length) (d : Point) :
    (l ++ l').getD i d = l.getD i d := by
  simp only [List.getD_eq_getElem?_getD]
  rw [List.getElem?_append_left h]

lemma getD_append_right_self (l : List Point) (a d : Point) :
    (l ++ [a]).getD l.length d = a := by
  simp only [List.getD_eq_getElem?_getD]
  rw [List.getElem?_append_right (le_refl _)]
  simp

lemma adjSum_concat (t : List Point) (a : Point) (h : t ≠ []) :
    adjSum (t ++ [a]) = adjSum t + cross (t.getD (t.length - 1) pt0) a := by
  induction t with
  | nil => exact absurd rfl h
  | cons x s ih =>
      match s with
      | [] => simp [adjSum]
      | y :: r =>
          have hys : (y :: r : List Point) ≠ [] := by simp
          have : ((x :: y :: r) ++ [a]) = x :: ((y :: r) ++ [a]) := by simp
          rw [this]
          rw [adjSum_cons x ((y :: r) ++ [a]) (by simp)]
          rw [adjSum_cons x (y :: r) hys]
          rw [ih hys]
          have h0 : ((y :: r : List Point) ++ [a]).getD 0 pt0 = (y :: r : List Point).getD 0 pt0 := by
            simp [List.getD]
          have h1 : (x :: y :: r : List Point).length - 1 = ((y :: r : List Point).length - 1) + 1 := by
            simp
          rw [h0, h1]
          have h2 : ((x :: y :: r : List Point)).getD (((y :: r : List Point).length - 1) + 1) pt0
              = (y :: r : List Point).getD ((y :: r : List Point).length - 1) pt0 := by
            simp [List.getD]
          rw [h2]
          ring

lemma shoelace_rotate_one (a : Point) (t : List Point) :
    shoelace (a :: t) = shoelace (t ++ [a]) := by
  match t with
  | [] => simp
  | q :: rest =>
      set s : List Point := q :: rest with hs
      have hsne : s ≠ [] := by simp [hs]
      have hne1 : (a :: s : List Point) ≠ [] := by simp
      have hne2 : (s ++ [a] : List Point) ≠ [] := by simp [hs]
      rw [shoelace_eq_adjSum _ hne1, shoelace_eq_adjSum _ hne2]
      rw [adjSum_cons a s hsne, adjSum_concat s a hsne]
      have hL1 : (a :: s : List Point).length - 1 = s.length := by simp
      have hL2 : (s ++ [a] : List Point).length - 1 = s.length := by simp
      rw [hL1, hL2]
      have e1 : (a :: s : List Point).getD s.length pt0 = s.getD (s.length - 1) pt0 := by
        have : s.length = (s.length - 1) + 1 := by simp [hs]
        rw [this]
        simp [List.getD]
      have e2 : (a :: s : List Point).getD 0 pt0 = a := by simp [List.getD]
      have e3 : (s ++ [a]).getD s.length pt0 = a := getD_append_right_self s a pt0
      have e4 : (s ++ [a]).getD 0 pt0 = s.getD 0 pt0 := by
        apply getD_append_left
        simp [hs]
      rw [e1, e2, e3, e4]
      ring

lemma shoelace_rotate (points : List Point) (k : ℕ) :
    shoelace (points.rotate k) = shoelace points := by
  induction k generalizing points with
  | zero => rw [List.rotate_zero]
  | succ k ih =>
      match points with
      | [] => rw [List.rotate_nil]
      | a :: t =>
          have : (a :: t).rotate (k + 1) = (t ++ [a]).rotate k := by
            simpa using List.rotate_cons_succ t a k
          rw [this, ih, ← shoelace_rotate_one]

lemma getD_reverse_zero (t : List Point) (h : t ≠ []) :
    t.reverse.getD 0 pt0 = t.getD (t.length - 1) pt0 := by
  simp only [List.getD_eq_getElem?_getD]
  rw [List.getElem?_reverse (by simpa using List.length_pos.2 h)]
  simp

lemma getD_reverse_last (t : List Point) (h : t ≠ []) :
    t.reverse.getD (t.length - 1) pt0 = t.getD 0 pt0 := by
  have hn : 0 < t.length := List.length_pos.2 h
  simp only [List.getD_eq_getElem?_getD]
  rw [List.getElem?_reverse (by simpa using Nat.sub_lt hn one_pos)]
  congr 2
  omega

lemma adjSum_reverse (points : List Point) :
    adjSum points.reverse = -adjSum points := by
  induction points with
  | nil => simp [adjSum]
  | cons x t ih =>
      match t with
      | [] => simp [adjSum]
      | q :: rest =>
          have htne : (q :: rest : List Point) ≠ [] := by simp
          have hrne : (q :: rest : List Point).reverse ≠ [] := by simp
          have : (x :: q :: rest : List Point).reverse = (q :: rest).reverse ++ [x] :=
            List.reverse_cons x (q :: rest)
          rw [this, adjSum_concat _ x hrne, ih]
          have hlen : (q :: rest : List Point).reverse.length - 1
              = (q :: rest : List Point).length - 1 := by simp
          rw [hlen, getD_reverse_last _ htne]
          rw [adjSum_cons x (q :: rest) htne]
          rw [cross_skew ((q :: rest : List Point).getD 0 pt0) x]
          ring

lemma shoelace_reverse (points : List Point) :
    shoelace points.reverse = -shoelace points := by
  match points with
  | [] => simp [shoelace]
  | a :: t =>
      have hne : (a :: t : List Point) ≠ [] := by simp
      have hrne : (a :: t : List Point).reverse ≠ [] := by simp
      rw [shoelace_eq_adjSum _ hrne, shoelace_eq_adjSum _ hne, adjSum_reverse]
      have hlen : (a :: t : List Point).reverse.length - 1
          = (a :: t : List Point).length - 1 := by simp
      rw [hlen, getD_reverse_last _ hne, getD_reverse_zero _ hne]
      rw [cross_skew ((a :: t : List Point).getD 0 pt0)
        ((a :: t : List Point).getD ((a :: t : List Point).length - 1) pt0)]
      ring

lemma round_scale_near (scale v : ℝ) (hs : 0 < scale) :
    |((round (v / scale) : ℤ) : ℝ) * scale - v| ≤ scale / 2 := by
  have h1 : |v / scale - ((round (v / scale) : ℤ) : ℝ)| ≤ 1 / 2 := abs_sub_round _
  have h2 : ((round (v / scale) : ℤ) : ℝ) * scale - v
      = -(scale * (v / scale - ((round (v / scale) : ℤ) : ℝ))) := by
    field_simp
    ring
  rw [h2, abs_neg, abs_mul, abs_of_pos hs]
  calc scale * |v / scale - ((round (v / scale) : ℤ) : ℝ)|
      ≤ scale * (1 / 2) := mul_le_mul_of_nonneg_left h1 hs.le
    _ = scale / 2 := by ring

/-- One side of a (purported) 4-gon: delta vector and Euclidean length,
as built by `checkIfRectangle`'s first loop (`next = points[(i+1) % 4]`). -/
structure SideVec where
  dx : ℝ
  dy : ℝ
  length : ℝ

/-- The `i`-th entry of the `sides` array of `checkIfRectangle`. -/
def side (points : List Point) (i : ℕ) : SideVec :=
  let current := points.getD i pt0
  let next := points.getD ((i + 1) % 4) pt0
  { dx := next.x - current.x
    dy := next.y - current.y
    length := Real.sqrt ((next.x - current.x) ^ 2 + (next.y - current.y) ^ 2) }

/-- `checkIfRectangle`: 4 vertices, opposite sides parallel (cross < 0.1) and
of equal length (< 0.1), and the FIRST pair of adjacent sides perpendicular
(dot < 0.1).  The source computes only `perpendicular12`. -/
def checkIfRectangle (points : List Point) : Prop :=
  points.length = 4
    ∧ |(side points 0).dx * (side points 2).dy - (side points 0).dy * (side points 2).dx| < 0.1
    ∧ |(side points 1).dx * (side points 3).dy - (side points 1).dy * (side points 3).dx| < 0.1
    ∧ |(side points 0).length - (side points 2).length| < 0.1
    ∧ |(side points 1).length - (side points 3).length| < 0.1
    ∧ |(side points 0).dx * (side points 1).dx + (side points 0).dy * (side points 1).dy| < 0.1

/-- Modelled from the spec's words, for comparison with `checkIfRectangle`:
the claim's classification requires ALL pairs of adjacent sides to be
perpendicular (every dot product within 0.1 of zero). -/
def rectangleSpec (points : List Point) : Prop :=
  points.length = 4
    ∧ |(side points 0).dx * (side points 2).dy - (side points 0).dy * (side points 2).dx| < 0.1
    ∧ |(side points 1).dx * (side points 3).dy - (side points 1).dy * (side points 3).dx| < 0.1
    ∧ |(side points 0).length - (side points 2).length| < 0.1
    ∧ |(side points 1).length - (side points 3).length| < 0.1
    ∧ |(side points 0).dx * (side points 1).dx + (side points 0).dy * (side points 1).dy| < 0.1
    ∧ |(side points 1).dx * (side points 2).dx + (side points 1).dy * (side points 2).dy| < 0.1
    ∧ |(side points 2).dx * (side points 3).dx + (side points 2).dy * (side points 3).dy| < 0.1
    ∧ |(side points 3).dx * (side points 0).dx + (side points 3).dy * (side points 0).dy| < 0.1

/-- `Math.atan2 y x`: angle of the vector `(x, y)`, in `(-π, π]`. -/
def atan2 (y x : ℝ) : ℝ :=
  if 0 < x then Real.arctan (y / x)
  else if x < 0 then
    (if 0 ≤ y then Real.arctan (y / x) + π else Real.arctan (y / x) - π)
  else (if 0 < y then π / 2 else if y < 0 then -(π / 2) else 0)

/-- JavaScript number truncation (round toward zero), used by `%`. -/
def jsTrunc (x : ℝ) : ℤ := if 0 ≤ x then ⌊x⌋ else ⌈x⌉

/-- JavaScript's `%` on numbers: remainder with the sign of the dividend. -/
def jsFmod (a b : ℝ) : ℝ := a - b * (jsTrunc (a / b) : ℝ)

/-- The loop body's circular distance between an angle (degrees) and a snap
angle: `Math.min(|θ−a|, |θ−a−360|, |θ−a+360|)`. -/
def angleDiff (angleDegrees snapAngle : ℝ) : ℝ :=
  min |angleDegrees - snapAngle| (min |angleDegrees - snapAngle - 360| |angleDegrees - snapAngle + 360|)

/-- `const snapAngles = [0, 45, 90, 135, 180, 225, 270, 315]`. -/
def snapAngles : List ℝ := [0, 45, 90, 135, 180, 225, 270, 315]

/-- The snapped endpoint for a given snap angle: start plus the original
straight-line distance in the snapped direction. -/
def snapTarget (start : Point) (straightDistance snapAngle : ℝ) : Point :=
  { x := start.x + straightDistance * Real.cos (snapAngle * π / 180)
    y := start.y + straightDistance * Real.sin (snapAngle * π / 180) }

/-- The `for (const snapAngle of snapAngles)` loop of `straightenLine`:
returns the snapped endpoint for the first snap angle within threshold. -/
def snapLoop (start : Point) (d θ : ℝ) : List ℝ → Option Point
  | [] => none
  | a :: rest =>
      if angleDiff θ a ≤ 15 then some (snapTarget start d a) else snapLoop start d θ rest

/-- `points[0]` of a stroke. -/
def strokeStart (points : List Point) : Point := points.getD 0 pt0

/-- `points[points.length - 1]` of a stroke. -/
def strokeEnd (points : List Point) : Point := points.getD (points.length - 1) pt0

/-- `straightDistance`: Euclidean distance between first and last point. -/
def strokeDistance (points : List Point) : ℝ :=
  Real.sqrt (((strokeEnd points).x - (strokeStart points).x) ^ 2
    + ((strokeEnd points).y - (strokeStart points).y) ^ 2)

/-- `angleDegrees = (atan2(dy, dx) * 180 / π + 360) % 360`. -/
def strokeAngleDeg (points : List Point) : ℝ :=
  jsFmod (atan2 ((strokeEnd points).y - (strokeStart points).y)
      ((strokeEnd points).x - (strokeStart points).x) * 180 / π + 360) 360

/-- `straightenLine`: a stroke of ≥ 2 points whose endpoints are at least 3
units apart and whose direction is within 15° of a canonical angle is
replaced by its two endpoints, the second recomputed at the snapped angle
and original distance; otherwise the stroke is returned unchanged. -/
def straightenLine (points : List Point) : List Point :=
  if points.length < 2 then points
  else if strokeDistance points < 3 then points
  else
    match snapLoop (strokeStart points) (strokeDistance points) (strokeAngleDeg points) snapAngles with
    | some p => [strokeStart points, p]
    | none => points

lemma snapLoop_eq_none (start : Point) (d : ℝ) {θ : ℝ} {l : List ℝ}
    (h : ∀ a ∈ l, ¬ angleDiff θ a ≤ 15) : snapLoop start d θ l = none := by
  induction l with
  | nil => rfl
  | cons a rest ih =>
      rw [snapLoop, if_neg (h a (by simp))]
      exact ih fun b hb => h b (by simp [hb])

lemma snapLoop_of_exists (start : Point) (d : ℝ) {θ : ℝ} {l : List ℝ}
    (h : ∃ a ∈ l, angleDiff θ a ≤ 15) :
    ∃ a ∈ l, angleDiff θ a ≤ 15 ∧ snapLoop start d θ l = some (snapTarget start d a) := by
  induction l with
  | nil => simp at h
  | cons a rest ih =>
      by_cases ha : angleDiff θ a ≤ 15
      · exact ⟨a, by simp, ha, by rw [snapLoop, if_pos ha]⟩
      · obtain ⟨b, hb, hble⟩ := h
        rcases List.mem_cons.1 hb with rfl | hbr
        · exact absurd hble ha
        · obtain ⟨c, hc, hcle, hceq⟩ := ih ⟨b, hbr, hble⟩
          exact ⟨c, by simp [hc], hcle, by rw [snapLoop, if_neg ha]; exact hceq⟩

lemma snapLoop_of_unique (start : Point) (d : ℝ) {θ : ℝ} {l : List ℝ} {a : ℝ}
    (ha : a ∈ l) (hle : angleDiff θ a ≤ 15)
    (huniq : ∀ b ∈ l, angleDiff θ b ≤ 15 → b = a) :
    snapLoop start d θ l = some (snapTarget start d a) := by
  induction l with
  | nil => simp at ha
  | cons x rest ih =>
      by_cases hx : angleDiff θ x ≤ 15
      · have : x = a := huniq x (by simp) hx
        rw [snapLoop, if_pos hx, this]
      · rcases List.mem_cons.1 ha with rfl | har
        · exact absurd hle hx
        · rw [snapLoop, if_neg hx]
          exact ih har fun b hb => huniq b (by simp [hb])

/-! ### Scene model and interaction state -/

/-- A committed room: closed polygon in grid space with label, area, color. -/
structure Room where
  id : String
  points : List Point
  label : String
  area : ℝ
  color : String
  selected : Bool := false

/-- A committed freehand stroke in grid space. -/
structure FreehandPath where
  id : String
  points : List Point
  color : String
  width : ℝ

/-- A committed text label anchored at a grid position. -/
structure TextLabel where
  id : String
  position : Point
  text : String
  color : String
  fontSize : ℝ

/-- The `textInput` editing draft. -/
structure TextInputState where
  position : Point
  value : String
  isEditing : Bool
  editingId : Option String := none

/-- The `isDraggingText` payload: dragged label id and pointer offset. -/
structure DragInfo where
  id : String
  offset : Point

/-- One undo-log entry (`CanvasAction` in the source), tagged by type. -/
inductive CanvasAction where
  | room (data : Room)
  | freehand (data : FreehandPath)
  | text (data : TextLabel)
  | delete (ids : List String) (types : List String)

/-- The active tool (the `tool` prop; `nullTool` models the null prop). -/
inductive Tool where
  | select
  | room
  | label
  | erase
  | freehand
  | nullTool
deriving DecidableEq

/-- The component state managed by the canvas (the `useState` slots the
claims concern). -/
structure CanvasState where
  rooms : List Room
  freehandPaths : List FreehandPath
  textLabels : List TextLabel
  currentRoom : List Point
  currentPath : List Point
  actionHistory : List CanvasAction
  isRoomClosed : Bool
  isDrawing : Bool
  isPinching : Bool
  isDraggingText : Option DragInfo
  textInput : Option TextInputState
  lastClickTime : ℝ
  lastClickedText : Option String
  viewOffset : Point
  zoom : ℝ
  selectedColor : String

/-- Result record of `findElementAtPoint` (`{ type, id, element }`). -/
inductive FoundElement where
  | text (element : TextLabel)
  | room (element : Room)
  | freehand (element : FreehandPath)

/-- The `id` field of a found element. -/
def FoundElement.id : FoundElement → String
  | .text l => l.id
  | .room r => r.id
  | .freehand f => f.id

/-- A `for`-loop over a list returning the first element satisfying the
condition (shared shape of the three scan loops of `findElementAtPoint`). -/
def findFirst? {α : Type} (p : α → Bool) : List α → Option α
  | [] => none
  | x :: rest => if p x then some x else findFirst? p rest

/-- Screen-space distance of the pointer to a label's anchor is < 30. -/
def labelHitB (zoom : ℝ) (viewOffset point : Point) (label : TextLabel) : Bool :=
  decide (Real.sqrt ((point.x - (gridToScreen zoom viewOffset label.position).x) ^ 2
    + (point.y - (gridToScreen zoom viewOffset label.position).y) ^ 2) < 30)

/-- Some recorded vertex of the path is within 10 screen pixels. -/
def pathHitB (zoom : ℝ) (viewOffset point : Point) (path : FreehandPath) : Bool :=
  path.points.any fun pp =>
    decide (Real.sqrt ((point.x - (gridToScreen zoom viewOffset pp).x) ^ 2
      + (point.y - (gridToScreen zoom viewOffset pp).y) ^ 2) < 10)

/-- `isPointInRoom`: ray-casting crossing test in screen space, toggling
`inside` over edges `(i, j)` with `j = i-1` (and `j = n-1` for `i = 0`). -/
def isPointInRoom (zoom : ℝ) (viewOffset point : Point) (room : Room) : Bool :=
  let screenPoints := room.points.map (gridToScreen zoom viewOffset)
  let n := screenPoints.length
  (List.range n).foldl
    (fun inside i =>
      let j := if i = 0 then n - 1 else i - 1
      let spi := screenPoints.getD i pt0
      let spj := screenPoints.getD j pt0
      if (decide (spi.y > point.y) != decide (spj.y > point.y))
          && decide (point.x < (spj.x - spi.x) * (point.y - spi.y) / (spj.y - spi.y) + spi.x)
      then !inside else inside)
    false

/-- `findElementAtPoint`: text labels first, then rooms, then freehand
paths, each in collection order; `none` when nothing is hit. -/
def findElementAtPoint (s : CanvasState) (point : Point) : Option FoundElement :=
  match findFirst? (labelHitB s.zoom s.viewOffset point) s.textLabels with
  | some label => some (.text label)
  | none =>
      match findFirst? (isPointInRoom s.zoom s.viewOffset point) s.rooms with
      | some room => some (.room room)
      | none =>
          match findFirst? (pathHitB s.zoom s.viewOffset point) s.freehandPaths with
          | some path => some (.freehand path)
          | none => none

/-- `handlePointerDown` for a single (mouse) pointer at screen `point`;
`currentTime` stands for `Date.now()`. -/
def handlePointerDown (tool : Tool) (s : CanvasState) (point : Point) (currentTime : ℝ) :
    CanvasState :=
  if s.isPinching then s
  else
    let gridPos := screenToGrid s.zoom s.viewOffset point
    match findElementAtPoint s point with
    | some (FoundElement.text textLabel) =>
        if currentTime - s.lastClickTime < 300 ∧ s.lastClickedText = some textLabel.id then
          { s with textInput := some ⟨textLabel.position, textLabel.text, true, some textLabel.id⟩,
                   lastClickTime := 0,
                   lastClickedText := none }
        else
          let screenPos := gridToScreen s.zoom s.viewOffset textLabel.position
          { s with isDraggingText := some ⟨textLabel.id, ⟨point.x - screenPos.x, point.y - screenPos.y⟩⟩,
                   lastClickTime := currentTime,
                   lastClickedText := some textLabel.id }
    | _ =>
        let s1 := { s with lastClickTime := currentTime, lastClickedText := none }
        match tool with
        | Tool.room =>
            if 3 ≤ s1.currentRoom.length then
              if Real.sqrt
                  ((point.x - (gridToScreen s1.zoom s1.viewOffset (s1.currentRoom.getD 0 pt0)).x) ^ 2
                    + (point.y - (gridToScreen s1.zoom s1.viewOffset (s1.currentRoom.getD 0 pt0)).y) ^ 2)
                  < 30 then
                { s1 with isRoomClosed := true }
              else { s1 with currentRoom := s1.currentRoom ++ [gridPos] }
            else { s1 with currentRoom := s1.currentRoom ++ [gridPos] }
        | Tool.freehand =>
            if s1.isPinching then s1
            else { s1 with isDrawing := true, currentPath := [gridPos] }
        | Tool.label => { s1 with textInput := some ⟨gridPos, "", true, none⟩ }
        | Tool.erase =>
            match findElementAtPoint s point with
            | some (FoundElement.room room) =>
                { s1 with rooms := s1.rooms.filter fun r => decide ¬ r.id = room.id }
            | some (FoundElement.freehand path) =>
                { s1 with freehandPaths := s1.freehandPaths.filter fun p => decide ¬ p.id = path.id }
            | some (FoundElement.text lab) =>
                { s1 with textLabels := s1.textLabels.filter fun l => decide ¬ l.id = lab.id }
            | none => s1
        | Tool.select => s1
        | Tool.nullTool => s1

/-- `handlePointerMove` (mouse): text dragging repositions the dragged
label; freehand drawing appends the grid point unless the pointer moved
less than 5 screen pixels from the last recorded vertex. -/
def handlePointerMove (tool : Tool) (s : CanvasState) (point : Point) : CanvasState :=
  match s.isDraggingText with
  | some drag =>
      let newGridPos := screenToGrid s.zoom s.viewOffset
        ⟨point.x - drag.offset.x, point.y - drag.offset.y⟩
      { s with textLabels := s.textLabels.map fun l =>
          if l.id = drag.id then { l with position := newGridPos } else l }
  | none =>
      let gridPos := screenToGrid s.zoom s.viewOffset point
      if tool = Tool.freehand ∧ s.isDrawing = true ∧ s.isPinching = false then
        { s with currentPath :=
            match s.currentPath.getLast? with
            | some lastPoint =>
                if Real.sqrt ((point.x - (gridToScreen s.zoom s.viewOffset lastPoint).x) ^ 2
                    + (point.y - (gridToScreen s.zoom s.viewOffset lastPoint).y) ^ 2) < 5
                then s.currentPath
                else s.currentPath ++ [gridPos]
            | none => s.currentPath ++ [gridPos] }
      else s

/-- `handlePointerUp`: ends text dragging or pinching; otherwise commits the
current freehand stroke (≥ 2 points) after `straightenLine`, logging it. -/
def handlePointerUp (tool : Tool) (s : CanvasState) (newId : String) : CanvasState :=
  match s.isDraggingText with
  | some _ => { s with isDraggingText := none }
  | none =>
      if s.isPinching then { s with isPinching := false }
      else
        if tool = Tool.freehand ∧ s.isDrawing = true ∧ 2 ≤ s.currentPath.length then
          let straightenedPath := straightenLine s.currentPath
          let newPath : FreehandPath := ⟨newId, straightenedPath, s.selectedColor, 3⟩
          { s with freehandPaths := s.freehandPaths ++ [newPath],
                   currentPath := [],
                   actionHistory := s.actionHistory ++ [CanvasAction.freehand newPath],
                   isDrawing := false }
        else { s with isDrawing := false }

/-- `handleRoomComplete` (the Done button): requires a closed draft of ≥ 3
vertices; commits the Room (area from `calculateArea`), logs it, resets the
draft. `newId` stands for `Date.now().toString()`. -/
def handleRoomComplete (s : CanvasState) (newId : String) : CanvasState :=
  if s.currentRoom.length < 3 ∨ s.isRoomClosed = false then s
  else
    let area := calculateArea s.currentRoom
    let newRoom : Room := ⟨newId, s.currentRoom, "", area, s.selectedColor, false⟩
    { s with rooms := s.rooms ++ [newRoom],
             currentRoom := [],
             isRoomClosed := false,
             actionHistory := s.actionHistory ++ [CanvasAction.room newRoom] }

/-- `handleUndo`: pops the most recent history entry and removes the
referenced entity (by id) from its collection; `delete` entries restore
nothing. -/
def handleUndo (s : CanvasState) : CanvasState :=
  match s.actionHistory.getLast? with
  | none => s
  | some lastAction =>
      let s1 :=
        match lastAction with
        | CanvasAction.room r =>
            { s with rooms := s.rooms.filter fun room => decide ¬ room.id = r.id }
        | CanvasAction.freehand f =>
            { s with freehandPaths := s.freehandPaths.filter fun path => decide ¬ path.id = f.id }
        | CanvasAction.text l =>
            { s with textLabels := s.textLabels.filter fun lab => decide ¬ lab.id = l.id }
        | CanvasAction.delete _ _ => s
      { s1 with actionHistory := s.actionHistory.dropLast }

/-- `handleTextSubmit`: commits or updates the text label being edited. -/
def handleTextSubmit (s : CanvasState) (newId : String) : CanvasState :=
  match s.textInput with
  | none => { s with textInput := none }
  | some ti =>
      if ti.value.trim = "" then { s with textInput := none }
      else
        match ti.editingId with
        | some eid =>
            let updated := s.textLabels.map fun l =>
              if l.id = eid then { l with text := ti.value } else l
            { s with textLabels := updated, textInput := none }
        | none =>
            let newLabel : TextLabel :=
              ⟨newId, ti.position, ti.value, (s.selectedColor.replace "40" ""), 16⟩
            { s with textLabels := s.textLabels ++ [newLabel],
                     actionHistory := s.actionHistory ++ [CanvasAction.text newLabel],
                     textInput := none }

/-- `handleTextDelete`: removes the label being edited. -/
def handleTextDelete (s : CanvasState) : CanvasState :=
  match s.textInput with
  | some ti =>
      match ti.editingId with
      | some eid =>
          { s with textLabels := (s.textLabels.filter fun l => decide ¬ l.id = eid),
                   textInput := none }
      | none => s
  | none => s

/-- `handleClear`: resets every collection and draft. -/
def handleClear (s : CanvasState) : CanvasState :=
  { s with rooms := [],
           freehandPaths := [],
           textLabels := [],
           currentRoom := [],
           currentPath := [],
           actionHistory := [],
           textInput := none,
           isRoomClosed := false }

/-- Pan directions of `handlePanCanvas`. -/
inductive PanDirection where
  | up
  | down
  | left
  | right

/-- `handlePanCanvas`: shifts the view offset by 50 pixels. -/
def handlePanCanvas (s : CanvasState) (direction : PanDirection) : CanvasState :=
  match direction with
  | PanDirection.up => { s with viewOffset := ⟨s.viewOffset.x, s.viewOffset.y + 50⟩ }
  | PanDirection.down => { s with viewOffset := ⟨s.viewOffset.x, s.viewOffset.y - 50⟩ }
  | PanDirection.left => { s with viewOffset := ⟨s.viewOffset.x + 50, s.viewOffset.y⟩ }
  | PanDirection.right => { s with viewOffset := ⟨s.viewOffset.x - 50, s.viewOffset.y⟩ }

/-- Outcome of `handleExport`: a raster image, or the "No content to
export" notice. -/
inductive ExportResult where
  | noContentNotice
  | image

/-- The `hasContent` scan of `handleExport`: some room with ≥ 3 points,
some path with ≥ 2 points, or some text label. -/
def exportHasContent (s : CanvasState) : Bool :=
  (s.rooms.any fun room => decide (3 ≤ room.points.length))
    || (s.freehandPaths.any fun path => decide (2 ≤ path.points.length))
    || !s.textLabels.isEmpty

/-- `handleExport`: mutates no state (first component is the input state);
produces the notice instead of an image exactly when there is no content. -/
def handleExport (s : CanvasState) : CanvasState × ExportResult :=
  (s, if exportHasContent s then ExportResult.image else ExportResult.noContentNotice)

/-- The initial component state (`useState` initial values). -/
def initState (selectedColor : String) (zoom : ℝ) : CanvasState :=
  { rooms := [],
    freehandPaths := [],
    textLabels := [],
    currentRoom := [],
    currentPath := [],
    actionHistory := [],
    isRoomClosed := false,
    isDrawing := false,
    isPinching := false,
    isDraggingText := none,
    textInput := none,
    lastClickTime := 0,
    lastClickedText := none,
    viewOffset := ⟨50, 50⟩,
    zoom := zoom,
    selectedColor := selectedColor }

/-- One user-visible state transition of the canvas: any handler invocation
(with arbitrary parameters), a zoom prop change, or the draft-clearing
effects of switching tools. -/
inductive Step : CanvasState → CanvasState → Prop where
  | pointerDown (tool : Tool) (point : Point) (currentTime : ℝ) (s : CanvasState) :
      Step s (handlePointerDown tool s point currentTime)
  | pointerMove (tool : Tool) (point : Point) (s : CanvasState) :
      Step s (handlePointerMove tool s point)
  | pointerUp (tool : Tool) (newId : String) (s : CanvasState) :
      Step s (handlePointerUp tool s newId)
  | roomComplete (newId : String) (s : CanvasState) :
      Step s (handleRoomComplete s newId)
  | undo (s : CanvasState) : Step s (handleUndo s)
  | textSubmit (newId : String) (s : CanvasState) : Step s (handleTextSubmit s newId)
  | textDelete (s : CanvasState) : Step s (handleTextDelete s)
  | clear (s : CanvasState) : Step s (handleClear s)
  | pan (direction : PanDirection) (s : CanvasState) : Step s (handlePanCanvas s direction)
  | zoomChange (zoom : ℝ) (s : CanvasState) : Step s { s with zoom := zoom }
  | exportStep (s : CanvasState) : Step s (handleExport s).1
  | toolChangeFromRoom (s : CanvasState) :
      Step s { s with currentRoom := [], isRoomClosed := false }
  | toolChangeFromFreehand (s : CanvasState) :
      Step s { s with currentPath := [], isDrawing := false }

lemma findFirst?_eq_some_iff {α : Type} (p : α → Bool) (l : List α) (a : α) :
    findFirst? p l = some a ↔
      ∃ pre post, l = pre ++ a :: post ∧ p a = true ∧ ∀ x ∈ pre, ¬ p x = true := by
  induction l with
  | nil => simp [findFirst?]
  | cons x rest ih =>
      by_cases hx : p x = true
      · rw [findFirst?, if_pos hx]
        constructor
        · intro h
          have hxa : x = a := by simpa using h
          subst hxa
          exact ⟨[], rest, rfl, hx, by simp⟩
        · rintro ⟨pre, post, heq, hpa, hpre⟩
          cases pre with
          | nil =>
              simp only [List.nil_append, List.cons.injEq] at heq
              rw [heq.1]
          | cons y pre' =>
              simp only [List.cons_append, List.cons.injEq] at heq
              exact absurd (heq.1 ▸ hx) (hpre y (by simp))
      · rw [findFirst?, if_neg hx, ih]
        constructor
        · rintro ⟨pre, post, heq, hpa, hpre⟩
          refine ⟨x :: pre, post, by rw [heq]; rfl, hpa, ?_⟩
          intro z hz
          rcases List.mem_cons.1 hz with rfl | hz'
          · exact hx
          · exact hpre z hz'
        · rintro ⟨pre, post, heq, hpa, hpre⟩
          cases pre with
          | nil =>
              simp only [List.nil_append, List.cons.injEq] at heq
              exact absurd (heq.1 ▸ hpa) hx
          | cons y pre' =>
              simp only [List.cons_append, List.cons.injEq] at heq
              exact ⟨pre', post, heq.2, hpa, fun z hz => hpre z (by simp [hz])⟩

lemma findFirst?_eq_none_iff {α : Type} (p : α → Bool) (l : List α) :
    findFirst? p l = none ↔ ∀ x ∈ l, ¬ p x = true := by
  induction l with
  | nil => simp [findFirst?]
  | cons x rest ih =>
      by_cases hx : p x = true
      · rw [findFirst?, if_pos hx]
        simp [hx]
      · rw [findFirst?, if_neg hx, ih]
        simp [hx]

lemma findElementAtPoint_eq_text_iff (s : CanvasState) (point : Point) (l : TextLabel) :
    findElementAtPoint s point = some (FoundElement.text l)
      ↔ findFirst? (labelHitB s.zoom s.viewOffset point) s.textLabels = some l := by
  unfold findElementAtPoint
  rcases h1 : findFirst? (labelHitB s.zoom s.viewOffset point) s.textLabels with - | x
  · rcases h2 : findFirst? (isPointInRoom s.zoom s.viewOffset point) s.rooms with - | r
    · rcases h3 : findFirst? (pathHitB s.zoom s.viewOffset point) s.freehandPaths with - | f
      · simp
      · simp
    · simp
  · simp

lemma findElementAtPoint_eq_room_iff (s : CanvasState) (point : Point) (r : Room) :
    findElementAtPoint s point = some (FoundElement.room r)
      ↔ findFirst? (labelHitB s.zoom s.viewOffset point) s.textLabels = none
        ∧ findFirst? (isPointInRoom s.zoom s.viewOffset point) s.rooms = some r := by
  unfold findElementAtPoint
  rcases h1 : findFirst? (labelHitB s.zoom s.viewOffset point) s.textLabels with - | x
  · rcases h2 : findFirst? (isPointInRoom s.zoom s.viewOffset point) s.rooms with - | r'
    · rcases h3 : findFirst? (pathHitB s.zoom s.viewOffset point) s.freehandPaths with - | f
      · simp
      · simp
    · simp
  · simp

lemma findElementAtPoint_eq_path_iff (s : CanvasState) (point : Point) (f : FreehandPath) :
    findElementAtPoint s point = some (FoundElement.freehand f)
      ↔ findFirst? (labelHitB s.zoom s.viewOffset point) s.textLabels = none
        ∧ findFirst? (isPointInRoom s.zoom s.viewOffset point) s.rooms = none
        ∧ findFirst? (pathHitB s.zoom s.viewOffset point) s.freehandPaths = some f := by
  unfold findElementAtPoint
  rcases h1 : findFirst? (labelHitB s.zoom s.viewOffset point) s.textLabels with - | x
  · rcases h2 : findFirst? (isPointInRoom s.zoom s.viewOffset point) s.rooms with - | r
    · rcases h3 : findFirst? (pathHitB s.zoom s.viewOffset point) s.freehandPaths with - | f'
      · simp
      · simp
    · simp
  · simp

lemma findElementAtPoint_eq_none_iff (s : CanvasState) (point : Point) :
    findElementAtPoint s point = none
      ↔ findFirst? (labelHitB s.zoom s.viewOffset point) s.textLabels = none
        ∧ findFirst? (isPointInRoom s.zoom s.viewOffset point) s.rooms = none
        ∧ findFirst? (pathHitB s.zoom s.viewOffset point) s.freehandPaths = none := by
  unfold findElementAtPoint
  rcases h1 : findFirst? (labelHitB s.zoom s.viewOffset point) s.textLabels with - | x
  · rcases h2 : findFirst? (isPointInRoom s.zoom s.viewOffset point) s.rooms with - | r
    · rcases h3 : findFirst? (pathHitB s.zoom s.viewOffset point) s.freehandPaths with - | f
      · simp
      · simp
    · simp
  · simp

/-- A point whose coordinates are integers (grid-snapped). -/
def IntegralPoint (p : Point) : Prop := ∃ a b : ℤ, p.x = (a : ℝ) ∧ p.y = (b : ℝ)

/-- Invariant: all committed room vertices and all draft-room vertices have
integer grid coordinates. -/
def RoomsIntegral (s : CanvasState) : Prop :=
  (∀ room ∈ s.rooms, ∀ p ∈ room.points, IntegralPoint p)
    ∧ ∀ p ∈ s.currentRoom, IntegralPoint p

lemma screenToGrid_integral (zoom : ℝ) (viewOffset p : Point) :
    IntegralPoint (screenToGrid zoom viewOffset p) :=
  ⟨_, _, rfl, rfl⟩

lemma handlePointerDown_effect (tool : Tool) (s : CanvasState) (point : Point) (t : ℝ) :
    ((handlePointerDown tool s point t).rooms = s.rooms
        ∨ ∃ q : String, (handlePointerDown tool s point t).rooms
            = s.rooms.filter fun x => decide ¬ x.id = q)
      ∧ ((handlePointerDown tool s point t).currentRoom = s.currentRoom
        ∨ (handlePointerDown tool s point t).currentRoom
            = s.currentRoom ++ [screenToGrid s.zoom s.viewOffset point]) := by
  unfold handlePointerDown
  by_cases hp : s.isPinching = true
  · rw [if_pos hp]
    exact ⟨Or.inl rfl, Or.inl rfl⟩
  · rw [if_neg hp]
    rcases hfe : findElementAtPoint s point with - | e
    · dsimp only
      cases tool with
      | room =>
          dsimp only
          by_cases h3 : 3 ≤ s.currentRoom.length
          · rw [if_pos h3]
            split
            · exact ⟨Or.inl rfl, Or.inl rfl⟩
            · exact ⟨Or.inl rfl, Or.inr rfl⟩
          · rw [if_neg h3]
            exact ⟨Or.inl rfl, Or.inr rfl⟩
      | freehand =>
          dsimp only
          split <;> exact ⟨Or.inl rfl, Or.inl rfl⟩
      | label => exact ⟨Or.inl rfl, Or.inl rfl⟩
      | erase => exact ⟨Or.inl rfl, Or.inl rfl⟩
      | select => exact ⟨Or.inl rfl, Or.inl rfl⟩
      | nullTool => exact ⟨Or.inl rfl, Or.inl rfl⟩
    · cases e with
      | text l =>
          dsimp only
          split
          · exact ⟨Or.inl rfl, Or.inl rfl⟩
          · exact ⟨Or.inl rfl, Or.inl rfl⟩
      | room r =>
          dsimp only
          cases tool with
          | room =>
              dsimp only
              by_cases h3 : 3 ≤ s.currentRoom.length
              · rw [if_pos h3]
                split
                · exact ⟨Or.inl rfl, Or.inl rfl⟩
                · exact ⟨Or.inl rfl, Or.inr rfl⟩
              · rw [if_neg h3]
                exact ⟨Or.inl rfl, Or.inr rfl⟩
          | freehand =>
              dsimp only
              split <;> exact ⟨Or.inl rfl, Or.inl rfl⟩
          | label => exact ⟨Or.inl rfl, Or.inl rfl⟩
          | erase => exact ⟨Or.inr ⟨r.id, rfl⟩, Or.inl rfl⟩
          | select => exact ⟨Or.inl rfl, Or.inl rfl⟩
          | nullTool => exact ⟨Or.inl rfl, Or.inl rfl⟩
      | freehand f =>
          dsimp only
          cases tool with
          | room =>
              dsimp only
              by_cases h3 : 3 ≤ s.currentRoom.length
              · rw [if_pos h3]
                split
                · exact ⟨Or.inl rfl, Or.inl rfl⟩
                · exact ⟨Or.inl rfl, Or.inr rfl⟩
              · rw [if_neg h3]
                exact ⟨Or.inl rfl, Or.inr rfl⟩
          | freehand =>
              dsimp only
              split <;> exact ⟨Or.inl rfl, Or.inl rfl⟩
          | label => exact ⟨Or.inl rfl, Or.inl rfl⟩
          | erase => exact ⟨Or.inl rfl, Or.inl rfl⟩
          | select => exact ⟨Or.inl rfl, Or.inl rfl⟩
          | nullTool => exact ⟨Or.inl rfl, Or.inl rfl⟩

lemma handlePointerMove_effect (tool : Tool) (s : CanvasState) (point : Point) :
    (handlePointerMove tool s point).rooms = s.rooms
      ∧ (handlePointerMove tool s point).currentRoom = s.currentRoom := by
  unfold handlePointerMove
  rcases hdt : s.isDraggingText with - | drag
  · dsimp only
    split
    · exact ⟨rfl, rfl⟩
    · exact ⟨rfl, rfl⟩
  · exact ⟨rfl, rfl⟩

lemma handlePointerUp_effect (tool : Tool) (s : CanvasState) (newId : String) :
    (handlePointerUp tool s newId).rooms = s.rooms
      ∧ (handlePointerUp tool s newId).currentRoom = s.currentRoom := by
  unfold handlePointerUp
  rcases hdt : s.isDraggingText with - | drag
  · dsimp only
    split
    · exact ⟨rfl, rfl⟩
    · split
      · exact ⟨rfl, rfl⟩
      · exact ⟨rfl, rfl⟩
  · exact ⟨rfl, rfl⟩

lemma handleUndo_effect (s : CanvasState) :
    ((handleUndo s).rooms = s.rooms
        ∨ ∃ q : String, (handleUndo s).rooms = s.rooms.filter fun x => decide ¬ x.id = q)
      ∧ (handleUndo s).currentRoom = s.currentRoom := by
  unfold handleUndo
  rcases h : s.actionHistory.getLast? with - | a
  · exact ⟨Or.inl rfl, rfl⟩
  · cases a with
    | room r => exact ⟨Or.inr ⟨r.id, rfl⟩, rfl⟩
    | freehand f => exact ⟨Or.inl rfl, rfl⟩
    | text l => exact ⟨Or.inl rfl, rfl⟩
    | delete ids types => exact ⟨Or.inl rfl, rfl⟩

lemma handleTextSubmit_effect (s : CanvasState) (newId : String) :
    (handleTextSubmit s newId).rooms = s.rooms
      ∧ (handleTextSubmit s newId).currentRoom = s.currentRoom := by
  unfold handleTextSubmit
  rcases ht : s.textInput with - | ti
  · exact ⟨rfl, rfl⟩
  · dsimp only
    split
    · exact ⟨rfl, rfl⟩
    · rcases he : ti.editingId with - | eid
      · exact ⟨rfl, rfl⟩
      · exact ⟨rfl, rfl⟩

lemma handleTextDelete_effect (s : CanvasState) :
    (handleTextDelete s).rooms = s.rooms
      ∧ (handleTextDelete s).currentRoom = s.currentRoom := by
  unfold handleTextDelete
  rcases ht : s.textInput with - | ti
  · exact ⟨rfl, rfl⟩
  · dsimp only
    rcases he : ti.editingId with - | eid
    · exact ⟨rfl, rfl⟩
    · exact ⟨rfl, rfl⟩

lemma step_preserves_roomsIntegral {s s' : CanvasState} (hinv : RoomsIntegral s)
    (hstep : Step s s') : RoomsIntegral s' := by
  have hpreserve :
      ∀ u : CanvasState,
        (u.rooms = s.rooms ∨ ∃ q : String, u.rooms = s.rooms.filter fun x => decide ¬ x.id = q) →
        (u.currentRoom = s.currentRoom
          ∨ ∃ zoom viewOffset point,
              u.currentRoom = s.currentRoom ++ [screenToGrid zoom viewOffset point]) →
        RoomsIntegral u := by
    intro u hr hc
    constructor
    · rcases hr with hr | ⟨q, hr⟩
      · rw [hr]; exact hinv.1
      · rw [hr]
        intro room hroom
        exact hinv.1 room (List.mem_of_mem_filter hroom)
    · rcases hc with hc | ⟨zoom, viewOffset, point, hc⟩
      · rw [hc]; exact hinv.2
      · rw [hc]
        intro p hp
        rcases List.mem_append.1 hp with hp | hp
        · exact hinv.2 p hp
        · rw [List.mem_singleton.1 hp]
          exact screenToGrid_integral _ _ _
  cases hstep with
  | pointerDown tool point currentTime =>
      obtain ⟨hr, hc⟩ := handlePointerDown_effect tool s point currentTime
      exact hpreserve _ hr (hc.imp id fun h => ⟨_, _, _, h⟩)
  | pointerMove tool point =>
      obtain ⟨hr, hc⟩ := handlePointerMove_effect tool s point
      exact hpreserve _ (Or.inl hr) (Or.inl hc)
  | pointerUp tool newId =>
      obtain ⟨hr, hc⟩ := handlePointerUp_effect tool s newId
      exact hpreserve _ (Or.inl hr) (Or.inl hc)
  | roomComplete newId =>
      unfold handleRoomComplete
      split
      · exact hinv
      · constructor
        · intro room hroom
          rcases List.mem_append.1 hroom with hroom | hroom
          · exact hinv.1 room hroom
          · rw [List.mem_singleton.1 hroom]
            intro p hp
            exact hinv.2 p hp
        · intro p hp
          exact absurd hp (List.not_mem_nil p)
  | undo =>
      obtain ⟨hr, hc⟩ := handleUndo_effect s
      exact hpreserve _ hr (Or.inl hc)
  | textSubmit newId =>
      obtain ⟨hr, hc⟩ := handleTextSubmit_effect s newId
      exact hpreserve _ (Or.inl hr) (Or.inl hc)
  | textDelete =>
      obtain ⟨hr, hc⟩ := handleTextDelete_effect s
      exact hpreserve _ (Or.inl hr) (Or.inl hc)
  | clear =>
      constructor
      · intro room hroom
        exact absurd hroom (List.not_mem_nil room)
      · intro p hp
        exact absurd hp (List.not_mem_nil p)
  | pan direction =>
      cases direction <;> exact ⟨hinv.1, hinv.2⟩
  | zoomChange zoom => exact hinv
  | exportStep => exact hinv
  | toolChangeFromRoom =>
      refine ⟨hinv.1, ?_⟩
      intro p hp
      exact absurd hp (List.not_mem_nil p)
  | toolChangeFromFreehand => exact hinv

/-- A state with a 3-vertex room draft whose first vertex coincides with a
text label's anchor, exercising the text-hit interception of
`handlePointerDown`. -/
def overlapState : CanvasState :=
  { initState "c" 100 with
      currentRoom := [⟨0, 0⟩, ⟨5, 0⟩, ⟨5, 5⟩],
      textLabels := [⟨"t", ⟨0, 0⟩, "x", "c", 16⟩] }

/-! ## Theorems about the claims -/

/-- C1: `calculateArea` returns the shoelace value
`|Σ (x_i·y_{i+1} − x_{i+1}·y_i)| / 2` with indices modulo the list length,
returns 0 for fewer than 3 points, and gives 16 on the square
(0,0),(4,0),(4,4),(0,4). -/
theorem calculateArea_shoelace_formula :
    (∀ points : List Point, 3 ≤ points.length →
        calculateArea points
          = |∑ i ∈ Finset.range points.length,
              ((points.getD i pt0).x * (points.getD ((i + 1) % points.length) pt0).y
                - (points.getD ((i + 1) % points.length) pt0).x * (points.getD i pt0).y)| / 2)
    ∧ (∀ points : List Point, points.length < 3 → calculateArea points = 0)
    ∧ calculateArea [⟨0, 0⟩, ⟨4, 0⟩, ⟨4, 4⟩, ⟨0, 4⟩] = 16 := by
  refine ⟨?_, ?_, ?_⟩
  · intro points h3
    rw [calculateArea_eq, if_neg (by omega)]
    simp only [shoelace, cross]
  · intro points h3
    rw [calculateArea_eq, if_pos h3]
  · rw [calculateArea_eq]
    norm_num [shoelace, cross, Finset.sum_range_succ, List.getD]

/-- C7: for lists of at least 3 points, `calculateArea` is invariant under
reversal and under every cyclic rotation of the vertex list. -/
theorem calculateArea_reverse_rotate (points : List Point) (_h : 3 ≤ points.length) :
    calculateArea points.reverse = calculateArea points
      ∧ ∀ k : ℕ, calculateArea (points.rotate k) = calculateArea points := by
  constructor
  · rw [calculateArea_eq, calculateArea_eq, List.length_reverse, shoelace_reverse, abs_neg]
  · intro k
    rw [calculateArea_eq, calculateArea_eq, List.length_rotate, shoelace_rotate]

/-- Witness for C7 at the square (0,0),(4,0),(4,4),(0,4). -/
theorem calculateArea_reverse_rotate_witness :
    calculateArea ([⟨0, 0⟩, ⟨4, 0⟩, ⟨4, 4⟩, ⟨0, 4⟩] : List Point).reverse
        = calculateArea [⟨0, 0⟩, ⟨4, 0⟩, ⟨4, 4⟩, ⟨0, 4⟩]
      ∧ calculateArea (([⟨0, 0⟩, ⟨4, 0⟩, ⟨4, 4⟩, ⟨0, 4⟩] : List Point).rotate 2)
        = calculateArea [⟨0, 0⟩, ⟨4, 0⟩, ⟨4, 4⟩, ⟨0, 4⟩] :=
  ⟨(calculateArea_reverse_rotate _ (by simp)).1,
   (calculateArea_reverse_rotate _ (by simp)).2 2⟩

/-- C2: `gridToScreen` is `gridPoint * GRID_SIZE * (zoom/100) + panOffset`
componentwise with `GRID_SIZE = 20`, and for positive zoom the round trip
`gridToScreen ∘ screenToGrid` moves a screen point by at most half a scaled
cell in each coordinate (the rounding tolerance). -/
theorem screenToGrid_gridToScreen_roundtrip :
    (∀ (zoom : ℝ) (viewOffset p : Point), 0 < zoom →
        |(gridToScreen zoom viewOffset (screenToGrid zoom viewOffset p)).x - p.x|
            ≤ GRID_SIZE * (zoom / 100) / 2
          ∧ |(gridToScreen zoom viewOffset (screenToGrid zoom viewOffset p)).y - p.y|
            ≤ GRID_SIZE * (zoom / 100) / 2)
    ∧ (∀ (zoom : ℝ) (viewOffset g : Point), 0 < zoom →
        (∃ a b : ℤ, g.x = (a : ℝ) ∧ g.y = (b : ℝ)) →
        screenToGrid zoom viewOffset (gridToScreen zoom viewOffset g) = g)
    ∧ (∀ (zoom : ℝ) (viewOffset g : Point),
        gridToScreen zoom viewOffset g
          = ⟨g.x * (GRID_SIZE * (zoom / 100)) + viewOffset.x,
             g.y * (GRID_SIZE * (zoom / 100)) + viewOffset.y⟩)
    ∧ GRID_SIZE = 20 := by
  refine ⟨?_, ?_, ?_, rfl⟩
  · intro zoom viewOffset p hz
    have hs : 0 < GRID_SIZE * (zoom / 100) := by
      apply mul_pos
      · norm_num [GRID_SIZE]
      · exact div_pos hz (by norm_num)
    unfold gridToScreen screenToGrid
    dsimp only
    constructor
    · have he : ((round ((p.x - viewOffset.x) / (GRID_SIZE * (zoom / 100))) : ℤ) : ℝ)
            * (GRID_SIZE * (zoom / 100)) + viewOffset.x - p.x
          = ((round ((p.x - viewOffset.x) / (GRID_SIZE * (zoom / 100))) : ℤ) : ℝ)
            * (GRID_SIZE * (zoom / 100)) - (p.x - viewOffset.x) := by ring
      rw [he]
      exact round_scale_near _ _ hs
    · have he : ((round ((p.y - viewOffset.y) / (GRID_SIZE * (zoom / 100))) : ℤ) : ℝ)
            * (GRID_SIZE * (zoom / 100)) + viewOffset.y - p.y
          = ((round ((p.y - viewOffset.y) / (GRID_SIZE * (zoom / 100))) : ℤ) : ℝ)
            * (GRID_SIZE * (zoom / 100)) - (p.y - viewOffset.y) := by ring
      rw [he]
      exact round_scale_near _ _ hs
  · intro zoom viewOffset g hz hint
    obtain ⟨a, b, ha, hb⟩ := hint
    have hs : GRID_SIZE * (zoom / 100) ≠ 0 := by
      apply ne_of_gt
      apply mul_pos
      · norm_num [GRID_SIZE]
      · exact div_pos hz (by norm_num)
    unfold screenToGrid gridToScreen
    dsimp only
    ext
    · dsimp only
      rw [add_sub_cancel_right, mul_div_assoc, div_self hs, mul_one, ha]
      rw [round_intCast]
    · dsimp only
      rw [add_sub_cancel_right, mul_div_assoc, div_self hs, mul_one, hb]
      rw [round_intCast]
  · intro zoom viewOffset g
    rfl

/-- Witness for C2 at zoom 100, pan offset (50,50), screen point (137,42). -/
theorem screenToGrid_gridToScreen_roundtrip_witness :
    |(gridToScreen 100 ⟨50, 50⟩ (screenToGrid 100 ⟨50, 50⟩ ⟨137, 42⟩)).x - (137 : ℝ)|
        ≤ GRID_SIZE * ((100 : ℝ) / 100) / 2
      ∧ |(gridToScreen 100 ⟨50, 50⟩ (screenToGrid 100 ⟨50, 50⟩ ⟨137, 42⟩)).y - (42 : ℝ)|
        ≤ GRID_SIZE * ((100 : ℝ) / 100) / 2
      ∧ screenToGrid 100 ⟨50, 50⟩ (gridToScreen 100 ⟨50, 50⟩ ⟨3, 4⟩) = ⟨3, 4⟩ :=
  ⟨(screenToGrid_gridToScreen_roundtrip.1 100 ⟨50, 50⟩ ⟨137, 42⟩ (by norm_num)).1,
   (screenToGrid_gridToScreen_roundtrip.1 100 ⟨50, 50⟩ ⟨137, 42⟩ (by norm_num)).2,
   screenToGrid_gridToScreen_roundtrip.2.1 100 ⟨50, 50⟩ ⟨3, 4⟩ (by norm_num)
     ⟨3, 4, by norm_num, by norm_num⟩⟩

/-- Witness for C1: the formula branch at the square, the degenerate branch
at a 2-point list. -/
theorem calculateArea_shoelace_formula_witness :
    calculateArea ([⟨0, 0⟩, ⟨4, 0⟩, ⟨4, 4⟩, ⟨0, 4⟩] : List Point)
        = |∑ i ∈ Finset.range (4 : ℕ),
            ((([⟨0, 0⟩, ⟨4, 0⟩, ⟨4, 4⟩, ⟨0, 4⟩] : List Point).getD i pt0).x
                * (([⟨0, 0⟩, ⟨4, 0⟩, ⟨4, 4⟩, ⟨0, 4⟩] : List Point).getD ((i + 1) % 4) pt0).y
              - (([⟨0, 0⟩, ⟨4, 0⟩, ⟨4, 4⟩, ⟨0, 4⟩] : List Point).getD ((i + 1) % 4) pt0).x
                * (([⟨0, 0⟩, ⟨4, 0⟩, ⟨4, 4⟩, ⟨0, 4⟩] : List Point).getD i pt0).y)| / 2
      ∧ calculateArea ([⟨0, 0⟩, ⟨1, 1⟩] : List Point) = 0 :=
  ⟨calculateArea_shoelace_formula.1 [⟨0, 0⟩, ⟨4, 0⟩, ⟨4, 4⟩, ⟨0, 4⟩] (by simp),
   calculateArea_shoelace_formula.2.1 [⟨0, 0⟩, ⟨1, 1⟩] (by simp)⟩

/-- C8 counterexample: a quadrilateral accepted by `checkIfRectangle`
although its second and third sides are far from perpendicular (their dot
product is 8.95), refuting the claim that classification requires all
adjacent side pairs to be perpendicular within 0.1. -/
theorem checkIfRectangle_counterexample :
    checkIfRectangle [⟨0, 0⟩, ⟨1, 0⟩, ⟨21/20, 100⟩, ⟨1/20, 10009/100⟩]
      ∧ ¬ rectangleSpec [⟨0, 0⟩, ⟨1, 0⟩, ⟨21/20, 100⟩, ⟨1/20, 10009/100⟩] := by
  set L : List Point := [⟨0, 0⟩, ⟨1, 0⟩, ⟨21/20, 100⟩, ⟨1/20, 10009/100⟩] with hL
  have h0 : side L 0 = ⟨1, 0, Real.sqrt 1⟩ := by
    simp only [hL, side, List.getD_cons_zero, List.getD_cons_succ]
    norm_num
  have h1 : side L 1 = ⟨1/20, 100, Real.sqrt (4000001/400)⟩ := by
    simp only [hL, side, List.getD_cons_zero, List.getD_cons_succ]
    norm_num
  have h2 : side L 2 = ⟨-1, 9/100, Real.sqrt (10081/10000)⟩ := by
    simp only [hL, side, List.getD_cons_zero, List.getD_cons_succ]
    norm_num
  have h3 : side L 3 = ⟨-1/20, -10009/100, Real.sqrt (50090053/5000)⟩ := by
    simp only [hL, side, List.getD_cons_zero, List.getD_cons_succ]
    norm_num
  have e13 : |Real.sqrt 1 - Real.sqrt (10081/10000)| < 0.1 := by
    have hub : Real.sqrt (10081/10000) < 11/10 :=
      (Real.sqrt_lt' (by norm_num)).2 (by norm_num)
    have hlb : (1 : ℝ) ≤ Real.sqrt (10081/10000) :=
      (Real.le_sqrt (by norm_num) (by norm_num)).2 (by norm_num)
    rw [Real.sqrt_one, abs_lt]
    constructor <;> [linarith; linarith]
  have e24 : |Real.sqrt (4000001/400) - Real.sqrt (50090053/5000)| < 0.1 := by
    have hA : (100 : ℝ) < Real.sqrt (4000001/400) :=
      (Real.lt_sqrt (by norm_num)).2 (by norm_num)
    have hB : Real.sqrt (50090053/5000) < 1001/10 :=
      (Real.sqrt_lt' (by norm_num)).2 (by norm_num)
    have hAB : Real.sqrt (4000001/400) ≤ Real.sqrt (50090053/5000) :=
      Real.sqrt_le_sqrt (by norm_num)
    rw [abs_lt]
    constructor <;> [linarith; linarith]
  constructor
  · refine ⟨by simp [hL], ?_, ?_, ?_, ?_, ?_⟩
    · rw [h0, h2]; norm_num [abs_lt]
    · rw [h1, h3]; norm_num [abs_lt]
    · rw [h0, h2]; exact e13
    · rw [h1, h3]; exact e24
    · rw [h0, h1]; norm_num [abs_lt]
  · intro hspec
    obtain ⟨-, -, -, -, -, -, hperp23, -, -⟩ := hspec
    rw [h1, h2] at hperp23
    norm_num [abs_lt] at hperp23

/-- C8 (amended): `checkIfRectangle` holds iff the list has exactly 4
vertices, opposite sides are parallel (cross products within 0.1) and of
equal length (within 0.1), and the FIRST adjacent pair of sides is
perpendicular (dot product within 0.1); perpendicularity of the other
adjacent pairs is not checked.  The square (0,0),(5,0),(5,5),(0,5) is
accepted and the quadrilateral (0,0),(5,0),(6,5),(0,5) rejected. -/
theorem checkIfRectangle_spec :
    (∀ p0 p1 p2 p3 : Point,
        checkIfRectangle [p0, p1, p2, p3] ↔
          (|(p1.x - p0.x) * (p3.y - p2.y) - (p1.y - p0.y) * (p3.x - p2.x)| < 0.1
            ∧ |(p2.x - p1.x) * (p0.y - p3.y) - (p2.y - p1.y) * (p0.x - p3.x)| < 0.1
            ∧ |Real.sqrt ((p1.x - p0.x) ^ 2 + (p1.y - p0.y) ^ 2)
                - Real.sqrt ((p3.x - p2.x) ^ 2 + (p3.y - p2.y) ^ 2)| < 0.1
            ∧ |Real.sqrt ((p2.x - p1.x) ^ 2 + (p2.y - p1.y) ^ 2)
                - Real.sqrt ((p0.x - p3.x) ^ 2 + (p0.y - p3.y) ^ 2)| < 0.1
            ∧ |(p1.x - p0.x) * (p2.x - p1.x) + (p1.y - p0.y) * (p2.y - p1.y)| < 0.1))
    ∧ (∀ points : List Point, points.length ≠ 4 → ¬ checkIfRectangle points)
    ∧ checkIfRectangle [⟨0, 0⟩, ⟨5, 0⟩, ⟨5, 5⟩, ⟨0, 5⟩]
    ∧ ¬ checkIfRectangle [⟨0, 0⟩, ⟨5, 0⟩, ⟨6, 5⟩, ⟨0, 5⟩] := by
  refine ⟨?_, ?_, ?_, ?_⟩
  · intro p0 p1 p2 p3
    simp [checkIfRectangle, side, List.getD_cons_zero, List.getD_cons_succ]
  · intro points hne hck
    exact hne hck.1
  · refine ⟨by simp, ?_, ?_, ?_, ?_, ?_⟩ <;>
      simp only [side, List.getD_cons_zero, List.getD_cons_succ] <;>
      norm_num [abs_lt, sub_self]
  · intro hck
    obtain ⟨-, -, hpar24, -⟩ := hck
    simp only [side, List.getD_cons_zero, List.getD_cons_succ] at hpar24
    norm_num [abs_lt] at hpar24

/-- Witness for C8 (amended) : the non-4-gon branch at a singleton list. -/
theorem checkIfRectangle_spec_witness :
    ¬ checkIfRectangle [(⟨0, 0⟩ : Point)] :=
  checkIfRectangle_spec.2.1 [⟨0, 0⟩] (by simp)

/-- C3 (amended): for a stroke of at least 2 points, if the endpoint
distance is at least 3 (the source tests `straightDistance < 3`, so
distance exactly 3 still snaps) and the direction angle is within 15° of a
snap angle, `straightenLine` returns exactly `[start, snappedEnd]` with
`snappedEnd` at the snapped angle and the original distance from start;
otherwise the stroke is returned unchanged. -/
theorem straightenLine_spec (points : List Point) (h2 : 2 ≤ points.length) :
    (3 ≤ strokeDistance points →
      (∃ a ∈ snapAngles, angleDiff (strokeAngleDeg points) a ≤ 15) →
        ∃ a ∈ snapAngles, angleDiff (strokeAngleDeg points) a ≤ 15 ∧
          straightenLine points
            = [strokeStart points,
               ⟨(strokeStart points).x + strokeDistance points * Real.cos (a * π / 180),
                (strokeStart points).y + strokeDistance points * Real.sin (a * π / 180)⟩])
    ∧ (3 ≤ strokeDistance points →
        ∀ a ∈ snapAngles, angleDiff (strokeAngleDeg points) a ≤ 15 →
          (∀ b ∈ snapAngles, angleDiff (strokeAngleDeg points) b ≤ 15 → b = a) →
          straightenLine points
            = [strokeStart points,
               ⟨(strokeStart points).x + strokeDistance points * Real.cos (a * π / 180),
                (strokeStart points).y + strokeDistance points * Real.sin (a * π / 180)⟩])
    ∧ (strokeDistance points < 3 → straightenLine points = points)
    ∧ ((∀ a ∈ snapAngles, ¬ angleDiff (strokeAngleDeg points) a ≤ 15) →
        straightenLine points = points) := by
  have hn2 : ¬ points.length < 2 := by omega
  refine ⟨?_, ?_, ?_, ?_⟩
  · intro hd hex
    obtain ⟨a, ha, hle, heq⟩ :=
      snapLoop_of_exists (strokeStart points) (strokeDistance points) hex
    refine ⟨a, ha, hle, ?_⟩
    unfold straightenLine
    rw [if_neg hn2, if_neg (not_lt.2 hd), heq]
    rfl
  · intro hd a ha hle huniq
    have heq := snapLoop_of_unique (strokeStart points) (strokeDistance points) ha hle huniq
    unfold straightenLine
    rw [if_neg hn2, if_neg (not_lt.2 hd), heq]
    rfl
  · intro hd
    unfold straightenLine
    rw [if_neg hn2, if_pos hd]
  · intro hnone
    have heq := snapLoop_eq_none (strokeStart points) (strokeDistance points) hnone
    unfold straightenLine
    rw [if_neg hn2]
    split
    · rfl
    · rw [heq]

/-- C3 counterexample: the stroke (0,0),(1,1),(3,0) has endpoint distance
exactly 3, which does not EXCEED the 3-unit minimum; the claim therefore
says it is returned unchanged, but the source (`straightDistance < 3`)
snaps it to its two endpoints. -/
theorem straightenLine_counterexample :
    strokeDistance [⟨0, 0⟩, ⟨1, 1⟩, ⟨3, 0⟩] = 3
      ∧ straightenLine [⟨0, 0⟩, ⟨1, 1⟩, ⟨3, 0⟩] ≠ [⟨0, 0⟩, ⟨1, 1⟩, ⟨3, 0⟩] := by
  have hstart : strokeStart [⟨0, 0⟩, ⟨1, 1⟩, ⟨3, 0⟩] = ⟨0, 0⟩ := rfl
  have hend : strokeEnd [⟨0, 0⟩, ⟨1, 1⟩, ⟨3, 0⟩] = ⟨3, 0⟩ := rfl
  have hdist : strokeDistance [⟨0, 0⟩, ⟨1, 1⟩, ⟨3, 0⟩] = 3 := by
    rw [strokeDistance, hstart, hend]
    norm_num
    rw [show (9 : ℝ) = 3 ^ 2 by norm_num, Real.sqrt_sq (by norm_num : (0:ℝ) ≤ 3)]
  refine ⟨hdist, ?_⟩
  have hangle : strokeAngleDeg [⟨0, 0⟩, ⟨1, 1⟩, ⟨3, 0⟩] = 0 := by
    rw [strokeAngleDeg, hstart, hend]
    have h1 : atan2 ((0 : ℝ) - 0) ((3 : ℝ) - 0) = 0 := by
      rw [atan2, if_pos (by norm_num : (0:ℝ) < 3 - 0)]
      norm_num [Real.arctan_zero]
    rw [h1]
    have h2 : ((0 : ℝ) * 180 / π + 360) = 360 := by
      rw [zero_mul, zero_div, zero_add]
    rw [h2, jsFmod]
    have h3 : jsTrunc ((360 : ℝ) / 360) = 1 := by
      rw [jsTrunc, if_pos (by norm_num)]
      norm_num
    rw [h3]
    norm_num
  have hzero : angleDiff (strokeAngleDeg [⟨0, 0⟩, ⟨1, 1⟩, ⟨3, 0⟩]) 0 ≤ 15 := by
    rw [hangle]
    rw [angleDiff]
    refine le_trans (min_le_left _ _) ?_
    norm_num
  have hloop : snapLoop (strokeStart [⟨0, 0⟩, ⟨1, 1⟩, ⟨3, 0⟩])
      (strokeDistance [⟨0, 0⟩, ⟨1, 1⟩, ⟨3, 0⟩])
      (strokeAngleDeg [⟨0, 0⟩, ⟨1, 1⟩, ⟨3, 0⟩]) snapAngles
        = some (snapTarget (strokeStart [⟨0, 0⟩, ⟨1, 1⟩, ⟨3, 0⟩])
            (strokeDistance [⟨0, 0⟩, ⟨1, 1⟩, ⟨3, 0⟩]) 0) := by
    rw [snapAngles, snapLoop, if_pos hzero]
  have hresult : straightenLine [⟨0, 0⟩, ⟨1, 1⟩, ⟨3, 0⟩]
      = [strokeStart [⟨0, 0⟩, ⟨1, 1⟩, ⟨3, 0⟩],
         snapTarget (strokeStart [⟨0, 0⟩, ⟨1, 1⟩, ⟨3, 0⟩])
           (strokeDistance [⟨0, 0⟩, ⟨1, 1⟩, ⟨3, 0⟩]) 0] := by
    unfold straightenLine
    rw [if_neg (by simp), if_neg (by rw [hdist]; norm_num), hloop]
  rw [hresult]
  intro hcontra
  have := congrArg List.length hcontra
  simp at this

/-- Witness for C3 (amended) at the spec's example: the stroke
(0,0)–(10,1) snaps to the horizontal direction while keeping the original
length √(10²+1²). -/
theorem straightenLine_spec_witness :
    straightenLine [⟨0, 0⟩, ⟨10, 1⟩]
      = [⟨0, 0⟩, ⟨Real.sqrt (10 ^ 2 + 1 ^ 2), 0⟩] := by
  have hstart : strokeStart [⟨0, 0⟩, ⟨10, 1⟩] = ⟨0, 0⟩ := rfl
  have hend : strokeEnd [⟨0, 0⟩, ⟨10, 1⟩] = ⟨10, 1⟩ := rfl
  have hdist : strokeDistance [⟨0, 0⟩, ⟨10, 1⟩] = Real.sqrt 101 := by
    rw [strokeDistance, hstart, hend]
    norm_num
  set A := Real.arctan (1 / 10) with hA
  have hA0 : 0 < A := by
    have h := Real.arctan_strictMono (show (0:ℝ) < 1 / 10 by norm_num)
    rwa [Real.arctan_zero] at h
  have hAup : A < 1 / 10 := by
    have h := Real.lt_tan hA0 (Real.arctan_lt_pi_div_two (1 / 10))
    rwa [Real.tan_arctan] at h
  have hpi : (0 : ℝ) < π := Real.pi_pos
  have hpi3 : (3 : ℝ) < π := Real.pi_gt_three
  set t := A * 180 / π with ht
  have ht0 : 0 < t := div_pos (mul_pos hA0 (by norm_num)) hpi
  have ht6 : t < 6 := by
    rw [ht, div_lt_iff hpi]
    nlinarith
  have hangle : strokeAngleDeg [⟨0, 0⟩, ⟨10, 1⟩] = t := by
    rw [strokeAngleDeg, hstart, hend]
    have h1 : atan2 ((1 : ℝ) - 0) ((10 : ℝ) - 0) = A := by
      rw [atan2, if_pos (by norm_num : (0:ℝ) < 10 - 0), hA]
      norm_num
    rw [h1, jsFmod]
    have h3 : jsTrunc ((A * 180 / π + 360) / 360) = 1 := by
      rw [jsTrunc, if_pos (by positivity)]
      rw [Int.floor_eq_iff]
      rw [le_div_iff (by norm_num : (0:ℝ) < 360), div_lt_iff (by norm_num : (0:ℝ) < 360)]
      constructor
      · push_cast
        rw [← ht]
        linarith
      · push_cast
        rw [← ht]
        linarith
    rw [h3, ht]
    push_cast
    ring
  have hdiff : angleDiff (strokeAngleDeg [⟨0, 0⟩, ⟨10, 1⟩]) 0 ≤ 15 := by
    rw [hangle, angleDiff]
    refine le_trans (min_le_left _ _) ?_
    rw [sub_zero, abs_of_pos ht0]
    linarith
  have huniq : ∀ b ∈ snapAngles, angleDiff (strokeAngleDeg [⟨0, 0⟩, ⟨10, 1⟩]) b ≤ 15 → b = 0 := by
    intro b hb hble
    rw [hangle] at hble
    simp only [snapAngles, List.mem_cons, List.not_mem_nil, or_false] at hb
    rcases hb with rfl | rfl | rfl | rfl | rfl | rfl | rfl | rfl
    · rfl
    all_goals
      exfalso
      simp only [angleDiff, min_le_iff, abs_le] at hble
      rcases hble with ⟨h1, hh2⟩ | ⟨h1, hh2⟩ | ⟨h1, hh2⟩ <;> linarith
  have hd3 : 3 ≤ strokeDistance [⟨0, 0⟩, ⟨10, 1⟩] := by
    rw [hdist]
    exact (Real.le_sqrt (by norm_num) (by norm_num)).2 (by norm_num)
  have happ := (straightenLine_spec [⟨0, 0⟩, ⟨10, 1⟩] (by simp)).2.1 hd3 0
    (by simp [snapAngles]) hdiff huniq
  rw [happ, hstart, hdist]
  have hc : Real.cos ((0 : ℝ) * π / 180) = 1 := by
    norm_num [Real.cos_zero]
  have hs : Real.sin ((0 : ℝ) * π / 180) = 0 := by
    norm_num [Real.sin_zero]
  rw [hc, hs]
  norm_num

/-- C6: `findElementAtPoint` returns at most one element, testing text
labels first (first label whose anchor is within 30 screen pixels), then
rooms in collection order (first room containing the point by the
ray-casting test), then freehand paths (first path with a recorded vertex
within 10 pixels), and `none` when nothing matches; the same function
decides hits for the erase tool and for text selection/drag. -/
theorem findElementAtPoint_spec (s : CanvasState) (point : Point) :
    (∀ l : TextLabel, labelHitB s.zoom s.viewOffset point l = true ↔
        Real.sqrt ((point.x - (gridToScreen s.zoom s.viewOffset l.position).x) ^ 2
          + (point.y - (gridToScreen s.zoom s.viewOffset l.position).y) ^ 2) < 30)
    ∧ (∀ f : FreehandPath, pathHitB s.zoom s.viewOffset point f = true ↔
        ∃ pp ∈ f.points,
          Real.sqrt ((point.x - (gridToScreen s.zoom s.viewOffset pp).x) ^ 2
            + (point.y - (gridToScreen s.zoom s.viewOffset pp).y) ^ 2) < 10)
    ∧ (∀ e₁ e₂ : FoundElement, findElementAtPoint s point = some e₁ →
        findElementAtPoint s point = some e₂ → e₁ = e₂)
    ∧ (∀ l : TextLabel, findElementAtPoint s point = some (FoundElement.text l) ↔
        ∃ pre post, s.textLabels = pre ++ l :: post
          ∧ labelHitB s.zoom s.viewOffset point l = true
          ∧ ∀ x ∈ pre, ¬ labelHitB s.zoom s.viewOffset point x = true)
    ∧ (∀ r : Room, findElementAtPoint s point = some (FoundElement.room r) ↔
        (∀ l ∈ s.textLabels, ¬ labelHitB s.zoom s.viewOffset point l = true)
          ∧ ∃ pre post, s.rooms = pre ++ r :: post
            ∧ isPointInRoom s.zoom s.viewOffset point r = true
            ∧ ∀ x ∈ pre, ¬ isPointInRoom s.zoom s.viewOffset point x = true)
    ∧ (∀ f : FreehandPath, findElementAtPoint s point = some (FoundElement.freehand f) ↔
        (∀ l ∈ s.textLabels, ¬ labelHitB s.zoom s.viewOffset point l = true)
          ∧ (∀ r ∈ s.rooms, ¬ isPointInRoom s.zoom s.viewOffset point r = true)
          ∧ ∃ pre post, s.freehandPaths = pre ++ f :: post
            ∧ pathHitB s.zoom s.viewOffset point f = true
            ∧ ∀ x ∈ pre, ¬ pathHitB s.zoom s.viewOffset point x = true)
    ∧ (findElementAtPoint s point = none ↔
        (∀ l ∈ s.textLabels, ¬ labelHitB s.zoom s.viewOffset point l = true)
          ∧ (∀ r ∈ s.rooms, ¬ isPointInRoom s.zoom s.viewOffset point r = true)
          ∧ ∀ f ∈ s.freehandPaths, ¬ pathHitB s.zoom s.viewOffset point f = true)
    ∧ (∀ (currentTime : ℝ) (r : Room), s.isPinching = false →
        findElementAtPoint s point = some (FoundElement.room r) →
          (handlePointerDown Tool.erase s point currentTime).rooms
              = s.rooms.filter (fun x => decide ¬ x.id = r.id)
            ∧ (handlePointerDown Tool.erase s point currentTime).freehandPaths = s.freehandPaths
            ∧ (handlePointerDown Tool.erase s point currentTime).textLabels = s.textLabels)
    ∧ (∀ (currentTime : ℝ) (f : FreehandPath), s.isPinching = false →
        findElementAtPoint s point = some (FoundElement.freehand f) →
          (handlePointerDown Tool.erase s point currentTime).freehandPaths
              = s.freehandPaths.filter (fun x => decide ¬ x.id = f.id)
            ∧ (handlePointerDown Tool.erase s point currentTime).rooms = s.rooms
            ∧ (handlePointerDown Tool.erase s point currentTime).textLabels = s.textLabels)
    ∧ (∀ currentTime : ℝ, s.isPinching = false →
        findElementAtPoint s point = none →
          handlePointerDown Tool.erase s point currentTime
            = { s with lastClickTime := currentTime, lastClickedText := none })
    ∧ (∀ (tool : Tool) (currentTime : ℝ) (l : TextLabel), s.isPinching = false →
        findElementAtPoint s point = some (FoundElement.text l) →
          (handlePointerDown tool s point currentTime).rooms = s.rooms
            ∧ (handlePointerDown tool s point currentTime).freehandPaths = s.freehandPaths
            ∧ (handlePointerDown tool s point currentTime).textLabels = s.textLabels) := by
  have hnp : ∀ b : Bool, b = false → ¬ b = true := by intro b hb; simp [hb]
  refine ⟨?_, ?_, ?_, ?_, ?_, ?_, ?_, ?_, ?_, ?_, ?_⟩
  · intro l
    simp [labelHitB]
  · intro f
    simp [pathHitB]
  · intro e₁ e₂ h1 h2
    have := h1.symm.trans h2
    simpa using this
  · intro l
    rw [findElementAtPoint_eq_text_iff, findFirst?_eq_some_iff]
  · intro r
    rw [findElementAtPoint_eq_room_iff, findFirst?_eq_some_iff, findFirst?_eq_none_iff]
  · intro f
    rw [findElementAtPoint_eq_path_iff, findFirst?_eq_some_iff,
      findFirst?_eq_none_iff, findFirst?_eq_none_iff]
  · rw [findElementAtPoint_eq_none_iff, findFirst?_eq_none_iff,
      findFirst?_eq_none_iff, findFirst?_eq_none_iff]
  · intro currentTime r hp hfind
    unfold handlePointerDown
    rw [if_neg (hnp _ hp), hfind]
    simp
  · intro currentTime f hp hfind
    unfold handlePointerDown
    rw [if_neg (hnp _ hp), hfind]
    simp
  · intro currentTime hp hfind
    unfold handlePointerDown
    rw [if_neg (hnp _ hp), hfind]
  · intro tool currentTime l hp hfind
    unfold handlePointerDown
    rw [if_neg (hnp _ hp), hfind]
    split
    · split <;> simp
    · rename_i hno
      exact (hno l rfl).elim

/-- Witness for C6: on the empty initial scene no element is hit. -/
theorem findElementAtPoint_spec_witness :
    findElementAtPoint (initState "c" 100) ⟨0, 0⟩ = none :=
  (findElementAtPoint_spec (initState "c" 100) ⟨0, 0⟩).2.2.2.2.2.2.1.mpr
    ⟨by simp [initState], by simp [initState], by simp [initState]⟩

/-- C4: with the room tool active, a draft of ≥ 3 vertices, and a
pointer-down within 30 screen pixels of the first vertex (and no text label
hit), the draft is only marked closed: no vertex is appended and no Room is
committed.  Committing happens only in `handleRoomComplete`, which requires
the closed flag and then appends the Room with area computed by
`calculateArea` from the draft points and resets the draft. -/
theorem room_closure_and_commit :
    (∀ (s : CanvasState) (point : Point) (currentTime : ℝ),
        s.isPinching = false →
        (∀ l : TextLabel, findElementAtPoint s point ≠ some (FoundElement.text l)) →
        3 ≤ s.currentRoom.length →
        Real.sqrt ((point.x - (gridToScreen s.zoom s.viewOffset (s.currentRoom.getD 0 pt0)).x) ^ 2
            + (point.y - (gridToScreen s.zoom s.viewOffset (s.currentRoom.getD 0 pt0)).y) ^ 2) < 30 →
          (handlePointerDown Tool.room s point currentTime).isRoomClosed = true
            ∧ (handlePointerDown Tool.room s point currentTime).currentRoom = s.currentRoom
            ∧ (handlePointerDown Tool.room s point currentTime).rooms = s.rooms
            ∧ (handlePointerDown Tool.room s point currentTime).actionHistory = s.actionHistory)
    ∧ (∀ (s : CanvasState) (newId : String), s.isRoomClosed = false →
        handleRoomComplete s newId = s)
    ∧ (∀ (s : CanvasState) (newId : String), s.currentRoom.length < 3 →
        handleRoomComplete s newId = s)
    ∧ (∀ (s : CanvasState) (newId : String), s.isRoomClosed = true → 3 ≤ s.currentRoom.length →
        (handleRoomComplete s newId).rooms
            = s.rooms
              ++ [⟨newId, s.currentRoom, "", calculateArea s.currentRoom, s.selectedColor, false⟩]
          ∧ (handleRoomComplete s newId).currentRoom = []
          ∧ (handleRoomComplete s newId).isRoomClosed = false
          ∧ (handleRoomComplete s newId).actionHistory
            = s.actionHistory
              ++ [CanvasAction.room
                    ⟨newId, s.currentRoom, "", calculateArea s.currentRoom, s.selectedColor, false⟩]) := by
  refine ⟨?_, ?_, ?_, ?_⟩
  · intro s point currentTime hp hnotext h3 hdist
    unfold handlePointerDown
    rw [if_neg (by simp [hp])]
    rcases hfe : findElementAtPoint s point with - | e
    · dsimp only
      rw [if_pos h3, if_pos hdist]
      simp
    · cases e with
      | text l => exact absurd hfe (hnotext l)
      | room r =>
          dsimp only
          rw [if_pos h3, if_pos hdist]
          simp
      | freehand f =>
          dsimp only
          rw [if_pos h3, if_pos hdist]
          simp
  · intro s newId hclosed
    unfold handleRoomComplete
    rw [if_pos (Or.inr hclosed)]
  · intro s newId hlen
    unfold handleRoomComplete
    rw [if_pos (Or.inl hlen)]
  · intro s newId hclosed h3
    unfold handleRoomComplete
    rw [if_neg (by simp [hclosed]; omega)]
    simp

/-- Witness for C4: closing click on a 3-vertex draft in the initial view,
then committing via `handleRoomComplete`. -/
theorem room_closure_and_commit_witness :
    (handlePointerDown Tool.room
        { initState "c" 100 with currentRoom := [⟨0, 0⟩, ⟨5, 0⟩, ⟨5, 5⟩] }
        ⟨50, 50⟩ 0).isRoomClosed = true
      ∧ (handlePointerDown Tool.room
          { initState "c" 100 with currentRoom := [⟨0, 0⟩, ⟨5, 0⟩, ⟨5, 5⟩] }
          ⟨50, 50⟩ 0).rooms = []
      ∧ (handleRoomComplete
          { initState "c" 100 with currentRoom := [⟨0, 0⟩, ⟨5, 0⟩, ⟨5, 5⟩], isRoomClosed := true }
          "1").rooms
        = [⟨"1", [⟨0, 0⟩, ⟨5, 0⟩, ⟨5, 5⟩], "",
            calculateArea [⟨0, 0⟩, ⟨5, 0⟩, ⟨5, 5⟩], "c", false⟩] := by
  have hdist : Real.sqrt (((50 : ℝ) - (gridToScreen
        ({ initState "c" 100 with currentRoom := [⟨0, 0⟩, ⟨5, 0⟩, ⟨5, 5⟩] } : CanvasState).zoom
        ({ initState "c" 100 with currentRoom := [⟨0, 0⟩, ⟨5, 0⟩, ⟨5, 5⟩] } : CanvasState).viewOffset
        (({ initState "c" 100 with currentRoom := [⟨0, 0⟩, ⟨5, 0⟩, ⟨5, 5⟩] } :
          CanvasState).currentRoom.getD 0 pt0)).x) ^ 2
      + ((50 : ℝ) - (gridToScreen
        ({ initState "c" 100 with currentRoom := [⟨0, 0⟩, ⟨5, 0⟩, ⟨5, 5⟩] } : CanvasState).zoom
        ({ initState "c" 100 with currentRoom := [⟨0, 0⟩, ⟨5, 0⟩, ⟨5, 5⟩] } : CanvasState).viewOffset
        (({ initState "c" 100 with currentRoom := [⟨0, 0⟩, ⟨5, 0⟩, ⟨5, 5⟩] } :
          CanvasState).currentRoom.getD 0 pt0)).y) ^ 2) < 30 := by
    simp only [initState, gridToScreen, GRID_SIZE, List.getD_cons_zero]
    norm_num [Real.sqrt_zero]
  have h1 := room_closure_and_commit.1
    { initState "c" 100 with currentRoom := [⟨0, 0⟩, ⟨5, 0⟩, ⟨5, 5⟩] } ⟨50, 50⟩ 0
    (by simp [initState])
    (by
      intro l h
      rw [findElementAtPoint_eq_text_iff, findFirst?_eq_some_iff] at h
      obtain ⟨pre, post, heq, -, -⟩ := h
      simp [initState] at heq)
    (by simp [initState]) hdist
  have h2 := room_closure_and_commit.2.2.2
    { initState "c" 100 with currentRoom := [⟨0, 0⟩, ⟨5, 0⟩, ⟨5, 5⟩], isRoomClosed := true }
    "1" (by simp [initState]) (by simp [initState])
  refine ⟨h1.1, ?_, ?_⟩
  · rw [h1.2.2.1]
    simp [initState]
  · rw [h2.1]
    simp [initState]

/-- C4 counterexample: with the room tool active, a 3-vertex draft, and a
pointer-down within the closure radius of the first vertex, the closed flag
is NOT set when a text label sits at that position — the click is
intercepted by the text-hit branch (label dragging) before the room tool
logic runs, so the claim needs the proviso that no text label is hit. -/
theorem room_closure_counterexample :
    3 ≤ overlapState.currentRoom.length
      ∧ Real.sqrt (((50 : ℝ) - (gridToScreen overlapState.zoom overlapState.viewOffset
            (overlapState.currentRoom.getD 0 pt0)).x) ^ 2
          + ((50 : ℝ) - (gridToScreen overlapState.zoom overlapState.viewOffset
            (overlapState.currentRoom.getD 0 pt0)).y) ^ 2) < 30
      ∧ (handlePointerDown Tool.room overlapState ⟨50, 50⟩ 1000).isRoomClosed = false := by
  have hgts : gridToScreen overlapState.zoom overlapState.viewOffset (⟨0, 0⟩ : Point)
      = ⟨50, 50⟩ := by
    simp only [overlapState, initState, gridToScreen, GRID_SIZE]
    ext <;> norm_num
  have hhit : labelHitB overlapState.zoom overlapState.viewOffset ⟨50, 50⟩
      (⟨"t", ⟨0, 0⟩, "x", "c", 16⟩ : TextLabel) = true := by
    rw [labelHitB, decide_eq_true_eq]
    dsimp only
    rw [hgts]
    norm_num [Real.sqrt_zero]
  have hfind : findElementAtPoint overlapState ⟨50, 50⟩
      = some (FoundElement.text ⟨"t", ⟨0, 0⟩, "x", "c", 16⟩) := by
    rw [findElementAtPoint_eq_text_iff, findFirst?_eq_some_iff]
    exact ⟨[], [], by simp [overlapState, initState], hhit, by simp⟩
  refine ⟨by simp [overlapState, initState], ?_, ?_⟩
  · have h0 : overlapState.currentRoom.getD 0 pt0 = (⟨0, 0⟩ : Point) := by
      simp [overlapState, initState]
    rw [h0, hgts]
    norm_num [Real.sqrt_zero]
  · unfold handlePointerDown
    rw [if_neg (by simp [overlapState, initState]), hfind]
    dsimp only
    rw [if_neg ?hdc]
    case hdc =>
      rintro ⟨h1, -⟩
      rw [show overlapState.lastClickTime = 0 by simp [overlapState, initState]] at h1
      norm_num at h1
    simp [overlapState, initState]

/-- C5: undo pops the most recent history entry and removes exactly the
referenced entity (by id) from its collection, leaving the other
collections untouched; after committing a room with a fresh id, undo
restores the rooms collection (and everything else) to its pre-commit
state. -/
theorem handleUndo_spec :
    (∀ s : CanvasState, s.actionHistory = [] → handleUndo s = s)
    ∧ (∀ (s : CanvasState) (r : Room),
        s.actionHistory.getLast? = some (CanvasAction.room r) →
          (handleUndo s).rooms = s.rooms.filter (fun room => decide ¬ room.id = r.id)
            ∧ (handleUndo s).freehandPaths = s.freehandPaths
            ∧ (handleUndo s).textLabels = s.textLabels
            ∧ (handleUndo s).actionHistory = s.actionHistory.dropLast)
    ∧ (∀ (s : CanvasState) (f : FreehandPath),
        s.actionHistory.getLast? = some (CanvasAction.freehand f) →
          (handleUndo s).freehandPaths
              = s.freehandPaths.filter (fun path => decide ¬ path.id = f.id)
            ∧ (handleUndo s).rooms = s.rooms
            ∧ (handleUndo s).textLabels = s.textLabels
            ∧ (handleUndo s).actionHistory = s.actionHistory.dropLast)
    ∧ (∀ (s : CanvasState) (l : TextLabel),
        s.actionHistory.getLast? = some (CanvasAction.text l) →
          (handleUndo s).textLabels = s.textLabels.filter (fun lab => decide ¬ lab.id = l.id)
            ∧ (handleUndo s).rooms = s.rooms
            ∧ (handleUndo s).freehandPaths = s.freehandPaths
            ∧ (handleUndo s).actionHistory = s.actionHistory.dropLast)
    ∧ (∀ (s : CanvasState) (newId : String),
        s.isRoomClosed = true → 3 ≤ s.currentRoom.length →
        (∀ room ∈ s.rooms, ¬ room.id = newId) →
          (handleUndo (handleRoomComplete s newId)).rooms = s.rooms
            ∧ (handleUndo (handleRoomComplete s newId)).freehandPaths = s.freehandPaths
            ∧ (handleUndo (handleRoomComplete s newId)).textLabels = s.textLabels
            ∧ (handleUndo (handleRoomComplete s newId)).actionHistory = s.actionHistory) := by
  refine ⟨?_, ?_, ?_, ?_, ?_⟩
  · intro s h
    unfold handleUndo
    rw [h]
    rfl
  · intro s r h
    unfold handleUndo
    rw [h]
    simp
  · intro s f h
    unfold handleUndo
    rw [h]
    simp
  · intro s l h
    unfold handleUndo
    rw [h]
    simp
  · intro s newId hclosed h3 hfresh
    unfold handleRoomComplete
    rw [if_neg (by simp [hclosed]; omega)]
    unfold handleUndo
    dsimp only
    rw [List.getLast?_concat]
    dsimp only
    simp only [List.dropLast_concat]
    refine ⟨?_, by simp, by simp, by simp⟩
    simp only [List.filter_append]
    rw [List.filter_eq_self.2 (by intro a ha; simpa using hfresh a ha)]
    simp

/-- Witness for C5: commit a triangle room on the initial state, undo it,
and recover the empty initial collections. -/
theorem handleUndo_spec_witness :
    (handleUndo (handleRoomComplete
        { initState "c" 100 with currentRoom := [⟨0, 0⟩, ⟨4, 0⟩, ⟨4, 4⟩], isRoomClosed := true }
        "1")).rooms = []
      ∧ (handleUndo (handleRoomComplete
          { initState "c" 100 with currentRoom := [⟨0, 0⟩, ⟨4, 0⟩, ⟨4, 4⟩], isRoomClosed := true }
          "1")).actionHistory = [] := by
  have h := handleUndo_spec.2.2.2.2
    { initState "c" 100 with currentRoom := [⟨0, 0⟩, ⟨4, 0⟩, ⟨4, 4⟩], isRoomClosed := true }
    "1" (by simp [initState]) (by simp [initState]) (by simp [initState])
  refine ⟨?_, ?_⟩
  · rw [h.1]
    simp [initState]
  · rw [h.2.2.2]
    simp [initState]

/-- C9: `handleExport` leaves the scene state unchanged and produces an
image iff the scene has content (a room with ≥ 3 points, a path with ≥ 2
points, or a text label); otherwise it produces the user-visible
no-content notice and no file. -/
theorem handleExport_spec (s : CanvasState) :
    (handleExport s).1 = s
      ∧ ((handleExport s).2 = ExportResult.image ↔
          ((∃ room ∈ s.rooms, 3 ≤ room.points.length)
            ∨ (∃ path ∈ s.freehandPaths, 2 ≤ path.points.length)
            ∨ s.textLabels ≠ []))
      ∧ ((handleExport s).2 = ExportResult.noContentNotice ↔
          ¬ ((∃ room ∈ s.rooms, 3 ≤ room.points.length)
            ∨ (∃ path ∈ s.freehandPaths, 2 ≤ path.points.length)
            ∨ s.textLabels ≠ [])) := by
  have hcontent : exportHasContent s = true ↔
      ((∃ room ∈ s.rooms, 3 ≤ room.points.length)
        ∨ (∃ path ∈ s.freehandPaths, 2 ≤ path.points.length)
        ∨ s.textLabels ≠ []) := by
    simp only [exportHasContent, Bool.or_eq_true, List.any_eq_true, decide_eq_true_eq,
      Bool.not_eq_true', List.isEmpty_eq_false, ne_eq]
    exact or_assoc
  refine ⟨rfl, ?_, ?_⟩
  · rw [← hcontent]
    unfold handleExport
    by_cases hc : exportHasContent s = true
    · simp [hc]
    · simp [hc]
  · rw [← hcontent]
    unfold handleExport
    by_cases hc : exportHasContent s = true
    · simp [hc]
    · simp [hc]

/-- Witness for C9: the empty initial scene yields the notice; a scene with
one triangle room yields an image. -/
theorem handleExport_spec_witness :
    (handleExport (initState "c" 100)).2 = ExportResult.noContentNotice
      ∧ (handleExport
          { initState "c" 100 with
              rooms := [⟨"1", [⟨0, 0⟩, ⟨1, 0⟩, ⟨0, 1⟩], "", 1/2, "c", false⟩] }).2
        = ExportResult.image :=
  ⟨(handleExport_spec (initState "c" 100)).2.2.mpr (by simp [initState]),
   (handleExport_spec _).2.1.mpr
     (Or.inl ⟨⟨"1", [⟨0, 0⟩, ⟨1, 0⟩, ⟨0, 1⟩], "", 1/2, "c", false⟩, by simp, by simp⟩)⟩

/-- C10: every committed room vertex has integer grid coordinates:
`screenToGrid` always produces an integral point, every canvas transition
preserves integrality of committed and draft room vertices, and hence in
every state reachable from the initial state all room vertices are
integral. -/
theorem committed_rooms_integral :
    (∀ (zoom : ℝ) (viewOffset p : Point), IntegralPoint (screenToGrid zoom viewOffset p))
    ∧ (∀ s s' : CanvasState, RoomsIntegral s → Step s s' → RoomsIntegral s')
    ∧ (∀ (selectedColor : String) (zoom : ℝ) (s : CanvasState),
        Relation.ReflTransGen Step (initState selectedColor zoom) s →
          ∀ room ∈ s.rooms, ∀ p ∈ room.points, IntegralPoint p) := by
  refine ⟨fun z o p => screenToGrid_integral z o p,
    fun s s' h hs => step_preserves_roomsIntegral h hs, ?_⟩
  intro color zoom s hreach
  have hinv : RoomsIntegral s := by
    induction hreach with
    | refl =>
        constructor
        · intro r hr
          simp [initState] at hr
        · intro p hp
          simp [initState] at hp
    | tail _ hstep ih => exact step_preserves_roomsIntegral ih hstep
  exact hinv.1

/-- Witness for C10: the invariant holds initially and is preserved by a
concrete room-tool pointer-down on the initial state. -/
theorem committed_rooms_integral_witness :
    RoomsIntegral (initState "c" 100)
      ∧ RoomsIntegral (handlePointerDown Tool.room (initState "c" 100) ⟨0, 0⟩ 0) := by
  have h1 : RoomsIntegral (initState "c" 100) := by
    constructor
    · intro r hr
      simp [initState] at hr
    · intro p hp
      simp [initState] at hp
  exact ⟨h1, committed_rooms_integral.2.1 _ _ h1 (Step.pointerDown Tool.room ⟨0, 0⟩ 0 _)⟩

end

end FloorPlan
